import Mathlib

/-
Verification development for the tennis-site booking application.

The definitions below are a shallow embedding of the repository's
client-side logic:
  - src/src/App.tsx          (slot grid, reconciliation, booking toggle,
                              waitlist handling, error translation)
  - src/src/utils/envUtils.ts (hostname-based environment detection)
  - src/amplify/functions/send-email-notification/handler.ts

JavaScript strings are modelled as Lean `String`, JavaScript
`string | null | undefined` values as `Option String` (with `none`
covering both null and undefined), and JavaScript truthiness of strings
as "some non-empty string".  JavaScript `Date` objects are modelled by a
record of calendar fields together with the day-rollover arithmetic that
`setDate` performs.  Remote calls are modelled by returning the update /
create / delete requests the code would issue.
-/

set_option autoImplicit false
set_option maxRecDepth 4000

namespace TennisSite

/-! ### Decimal rendering and parsing

`Number.prototype.toString` on a non-negative integer renders the usual
decimal digits; `Number(s)` applied to a digit string (possibly with
leading zeros) parses them back.  `toDecimalAux` carries explicit fuel so
that the definition is structural and evaluates by `decide`. -/

/-- The character for a single decimal digit. -/
def digitChar (n : Nat) : Char := Char.ofNat (48 + n)

/-- Decimal digits of `n`, most significant first.  The `fuel` argument
only needs to be at least the number of digits; `toDecimal` passes a
sufficient amount. -/
def toDecimalAux : Nat → Nat → List Char
  | 0, _ => []
  | fuel + 1, n =>
    if n < 10 then [digitChar n]
    else toDecimalAux fuel (n / 10) ++ [digitChar (n % 10)]

/-- Decimal digit list of `n`, most significant digit first. -/
def toDecimal (n : Nat) : List Char := toDecimalAux (n + 1) n

/-- Embedding of `n.toString()` for a non-negative integer `n`. -/
def natToString (n : Nat) : String := String.mk (toDecimal n)

/-- Embedding of `Number(s)` on a digit string: fold up the digit values. -/
def parseDecimal (cs : List Char) : Nat :=
  cs.foldl (fun a c => a * 10 + (c.toNat - 48)) 0

/-- Embedding of `Number(s)` on a `String`. -/
def parseDec (s : String) : Nat := parseDecimal s.data

/-- Embedding of `s.padStart(2, '0')`. -/
def padStart2 (s : String) : String :=
  String.mk (List.replicate (2 - s.data.length) '0' ++ s.data)

/-! ### JavaScript string helpers -/

/-- JavaScript truthiness of a `string | null | undefined` value:
`null`, `undefined` and the empty string are falsy. -/
def truthyStr : Option String → Bool
  | none => false
  | some s => !s.isEmpty

/-- Embedding of the JavaScript expression `a || b` on nullable strings. -/
def jsOr (a b : Option String) : Option String :=
  if truthyStr a then a else b

/-- Embedding of the JavaScript expression `a || null` on nullable
strings (used for user attributes in App.tsx). -/
def jsOrNull (a : Option String) : Option String :=
  if truthyStr a then a else none

/-- Split a character list at every occurrence of the separator `c`.
The result is never empty, and models JavaScript
`s.split(sep)` for a one-character separator. -/
def splitCharList (c : Char) : List Char → List (List Char)
  | [] => [[]]
  | x :: xs =>
    match splitCharList c xs with
    | [] => [[x]]
    | y :: ys => if x = c then [] :: y :: ys else (x :: y) :: ys

/-- Embedding of `s.split(sep)` for a one-character separator. -/
def jsSplit (c : Char) (s : String) : List String :=
  (splitCharList c s.data).map String.mk

/-- Embedding of `s.charAt(0)`: a one-character string, or the empty
string on empty input. -/
def charAt0 (s : String) : String :=
  match s.data with
  | [] => ""
  | c :: _ => String.mk [c]

/-! ### Dates (App.tsx date utilities)

A JavaScript `Date` is modelled by its local calendar fields.  The
`month` field is 1-based, i.e. it stores `getMonth() + 1`; `day` stores
`getDate()`.  The time-of-day fields are carried so that the
`setHours(0, 0, 0, 0)` normalization in `getSevenDatesFromToday` is
visible in the model. -/

structure Date where
  year : Nat
  month : Nat
  day : Nat
  hour : Nat
  minute : Nat
  second : Nat
  ms : Nat
deriving DecidableEq, Repr

/-- Gregorian leap-year test, as used by the JavaScript calendar. -/
def isLeapYear (y : Nat) : Bool :=
  y % 4 = 0 && (y % 100 != 0 || y % 400 = 0)

/-- Number of days in month `m` (1-based) of year `y`. -/
def daysInMonth (y m : Nat) : Nat :=
  if m = 2 then (if isLeapYear y then 29 else 28)
  else if m = 4 || m = 6 || m = 9 || m = 11 then 30
  else 31

/-- Step a date forward by one calendar day, rolling over months and
years. -/
def nextDay (dt : Date) : Date :=
  if dt.day < daysInMonth dt.year dt.month then { dt with day := dt.day + 1 }
  else if dt.month < 12 then { dt with month := dt.month + 1, day := 1 }
  else { dt with year := dt.year + 1, month := 1, day := 1 }

/-- Step a date forward by `n` calendar days. -/
def addDays (dt : Date) : Nat → Date
  | 0 => dt
  | n + 1 => nextDay (addDays dt n)

/-- Embedding of `d.setDate(v)` for `v ≥ 1`: day `v` of the date's
current month, rolling forward on overflow. -/
def setDate (dt : Date) (v : Nat) : Date :=
  addDays { dt with day := 1 } (v - 1)

/-- Embedding of `d.setHours(0, 0, 0, 0)`. -/
def startOfDay (dt : Date) : Date :=
  { dt with hour := 0, minute := 0, second := 0, ms := 0 }

/-- The time slots of the schedule, from App.tsx:
13 hourly slots from 08:00 to 20:00. -/
def timeSlots : List String :=
  (List.range 13).map (fun i => padStart2 (natToString (8 + i)) ++ ":00")

/-- Embedding of the storage branch of `getFormattedDate`:
the string `YYYY-MM-DD` with zero-padded month and day.  (The display
branch delegates to `toLocaleDateString`, a locale-dependent runtime
facility outside the model; no claim depends on it.) -/
def getFormattedDateStorage (dt : Date) : String :=
  natToString dt.year ++ "-" ++ padStart2 (natToString dt.month) ++ "-"
    ++ padStart2 (natToString dt.day)

/-- One entry of the array returned by `getSevenDatesFromToday`: the
`Date` object and its storage format. -/
structure SevenDate where
  date : Date
  storage : String
deriving DecidableEq, Repr

/-- Embedding of `getSevenDatesFromToday`, parameterized by the current
wall-clock date `now` (the code calls `new Date()`): normalize to the
start of the day, then produce 7 entries where entry `i` is a copy of
today with `setDate(today.getDate() + i)` applied. -/
def getSevenDatesFromToday (now : Date) : List SevenDate :=
  let today := startOfDay now
  (List.range 7).map (fun i =>
    let currentDate := setDate today (today.day + i)
    { date := currentDate, storage := getFormattedDateStorage currentDate })

/-! ### Slot records and the reconciliation pass in loadInitialData

A `Todo` is a slot record as declared in amplify/data/resource.ts:
`dateSlot` and `timeSlot` are required strings, the four booker fields
are nullable strings.  Records handled by the load pass have already
passed the `isValidTodo` type guard, so `id`, `dateSlot` and `timeSlot`
are present as strings. -/

structure Todo where
  id : String
  dateSlot : String
  timeSlot : String
  bookedByUsername : Option String
  bookedByFirstName : Option String
  bookedByLastName : Option String
  bookedByEmail : Option String
deriving DecidableEq, Repr

/-- The key the load pass computes for a record:
the template literal `${todo.dateSlot}-${todo.timeSlot}`. -/
def todoKey (t : Todo) : String := t.dateSlot ++ "-" ++ t.timeSlot

/-- The expected slot keys built in `loadInitialData`: for each of the
seven dates and each time slot, the string
`${dateObj.storage}-${time}`. -/
def expectedSlotKeys (now : Date) : List String :=
  (getSevenDatesFromToday now).flatMap
    (fun dateObj => timeSlots.map (fun time => dateObj.storage ++ "-" ++ time))

/-- The (storage date, time) pairs the creation loop of
`loadInitialData` iterates over. -/
def expectedSlotPairs (now : Date) : List (String × String) :=
  (getSevenDatesFromToday now).flatMap
    (fun dateObj => timeSlots.map (fun time => (dateObj.storage, time)))

/-- State of the reconciliation loop: the `validExistingSlots` map
(a JavaScript `Map`, i.e. an insertion-ordered association list whose
keys are unique) and the `idsToDelete` set (insertion-ordered, without
duplicates). -/
structure ReconState where
  valid : List (String × Todo)
  toDelete : List String
deriving DecidableEq, Repr

/-- Embedding of `validExistingSlots.get(key)` / `.has(key)`. -/
def lookupValid (m : List (String × Todo)) (k : String) : Option Todo :=
  (m.find? (fun p => p.1 = k)).map (fun p => p.2)

/-- Embedding of `idsToDelete.add(id)` (a JavaScript `Set` ignores
re-insertion). -/
def addDelete (s : ReconState) (i : String) : ReconState :=
  if i ∈ s.toDelete then s else { s with toDelete := s.toDelete ++ [i] }

/-- One iteration of the `allExistingTodos.forEach` loop in
`loadInitialData`: a record whose key is expected and unseen is kept,
a record whose key is expected but already seen is marked for deletion,
and a record whose key is not expected is marked for deletion. -/
def reconStep (expected : List String) (s : ReconState) (t : Todo) : ReconState :=
  let key := todoKey t
  if key ∈ expected then
    if (lookupValid s.valid key).isSome then addDelete s t.id
    else { s with valid := s.valid ++ [(key, t)] }
  else addDelete s t.id

/-- The `forEach` loop itself, processing the fetched records in order. -/
def reconAux (expected : List String) (s : ReconState) : List Todo → ReconState
  | [] => s
  | t :: ts => reconAux expected (reconStep expected s t) ts

/-- The reconciliation pass over the fetched records, starting from an
empty map and an empty deletion set. -/
def recon (expected : List String) (todos : List Todo) : ReconState :=
  reconAux expected ⟨[], []⟩ todos

/-- A record passed to `client.models.Todo.create`: like `Todo` but
without an `id` (the backend assigns one). -/
structure NewSlot where
  dateSlot : String
  timeSlot : String
  bookedByUsername : Option String
  bookedByFirstName : Option String
  bookedByLastName : Option String
  bookedByEmail : Option String
deriving DecidableEq, Repr

/-- The key of a record scheduled for creation. -/
def newSlotKey (s : NewSlot) : String := s.dateSlot ++ "-" ++ s.timeSlot

/-- Embedding of the `newSlotsToCreate` loop in `loadInitialData`: for
each (date, time) pair in grid order whose key is absent from
`validExistingSlots`, an all-null record is pushed. -/
def newSlotsToCreate (now : Date) (valid : List (String × Todo)) : List NewSlot :=
  (expectedSlotPairs now).filterMap (fun p =>
    if lookupValid valid (p.1 ++ "-" ++ p.2) = none then
      some ⟨p.1, p.2, none, none, none, none⟩
    else none)

/-! ### formatDisplayName (App.tsx) -/

/-- Embedding of `formatDisplayName`: first/last name when both are
truthy, otherwise the email, otherwise the username, otherwise
"Unknown".  `lastName.charAt(0)` is the first character of the last
name. -/
def formatDisplayName (firstName lastName email username : Option String) : String :=
  if truthyStr firstName && truthyStr lastName then
    firstName.getD "" ++ " " ++ charAt0 (lastName.getD "") ++ "."
  else if truthyStr email then email.getD ""
  else if truthyStr username then username.getD ""
  else "Unknown"

/-! ### The booking toggle in handleSlotClick (App.tsx)

Only the branch where the clicked slot was found in the local `todos`
cache is modelled (the not-found branch issues no remote call; its
create call is commented out in the source).  The remote effect of each
branch is reified as a `SlotClickAction`. -/

inductive SlotClickAction where
  /-- `client.models.Todo.update` with the given id and booker fields. -/
  | update (id : String)
      (bookedByUsername bookedByFirstName bookedByLastName bookedByEmail : Option String)
  /-- Admin path of the booked-by-other branch: open the booker-details
  modal for the record; no remote call. -/
  | showBookerDetails (id : String)
  /-- Non-admin path of the booked-by-other branch: show the
  already-booked message with the booker's display name; no remote
  call. -/
  | showAlreadyBooked (displayName : String)
deriving DecidableEq, Repr

/-- Embedding of the three-branch body of `handleSlotClick` for a found
record.  `username` is `user.username`; `givenName`, `familyName` and
`email` are the freshly fetched user attributes, which the code
normalizes with `|| null` before use. -/
def handleSlotClickFound (username : String)
    (givenName familyName email : Option String) (isAdmin : Bool)
    (targetTodo : Todo) : SlotClickAction :=
  let currentUserFirstName := jsOrNull givenName
  let currentUserLastName := jsOrNull familyName
  let currentUserEmail := jsOrNull email
  if targetTodo.bookedByUsername = some username then
    .update targetTodo.id none none none none
  else if targetTodo.bookedByUsername ≠ none then
    if isAdmin then .showBookerDetails targetTodo.id
    else .showAlreadyBooked (formatDisplayName targetTodo.bookedByFirstName
      targetTodo.bookedByLastName targetTodo.bookedByEmail targetTodo.bookedByUsername)
  else
    .update targetTodo.id (some username) currentUserFirstName
      currentUserLastName currentUserEmail

/-! ### Waitlist entries (App.tsx)

`RawWaitlistItem` models an item arriving on the
`WaitlistEntry.observeQuery` subscription before the
`isValidWaitlistEntry` type guard: `id` and `email` are `some` exactly
when the corresponding field is present with a string value; the
remaining three fields use `none` for an absent field and `some none`
for an explicit null.  (Values of entirely different runtime type, which
the guard would also reject, are outside the typed model; for `id` and
`email` they coincide with `none`, and for the optional fields the
guard's string-or-null test is always satisfied by the representable
values.) -/

structure RawWaitlistItem where
  id : Option String
  email : Option String
  firstName : Option (Option String)
  lastName : Option (Option String)
  createdAt : Option (Option String)
deriving DecidableEq, Repr

/-- A waitlist entry after the type guard: `id` and `email` are known
strings. -/
structure WaitlistEntry where
  id : String
  email : String
  firstName : Option String
  lastName : Option String
  createdAt : Option String
deriving DecidableEq, Repr

/-- Embedding of the subscription handler
`items.filter(isValidWaitlistEntry)`: keep exactly the items whose `id`
and `email` are present strings, with the type refinement the guard
provides. -/
def waitlistSubscriptionNext (items : List RawWaitlistItem) : List WaitlistEntry :=
  items.filterMap (fun it =>
    match it.id, it.email with
    | some i, some e =>
        some ⟨i, e, it.firstName.getD none, it.lastName.getD none, it.createdAt.getD none⟩
    | _, _ => none)

/-- Embedding of the `isUserInWaitlist` effect: true exactly when the
identifier is truthy, the entry list is non-empty, and some entry's
email equals the identifier. -/
def isUserInWaitlistCalc (identifier : Option String) (entries : List WaitlistEntry) : Bool :=
  if truthyStr identifier && decide (0 < entries.length) then
    entries.any (fun entry => entry.email = identifier.getD "")
  else false

/-- The remote effect of `handleWaitlistToggle`. -/
inductive WaitlistAction where
  /-- `client.models.WaitlistEntry.delete` on the found entry. -/
  | remove (id : String)
  /-- `isUserInWaitlist` was true but no entry matched: only a message,
  no remote call. -/
  | notFoundMessage
  /-- `client.models.WaitlistEntry.create` with the given fields. -/
  | create (email : String) (firstName lastName : Option String)
deriving DecidableEq, Repr

/-- Embedding of the body of `handleWaitlistToggle` after the user is
authenticated and attributes were fetched.  `none` as a result means the
identifier was falsy and the handler returned with only an error
message. -/
def handleWaitlistToggle (attrsEmail username : Option String)
    (givenName familyName : Option String) (inWaitlist : Bool)
    (entries : List WaitlistEntry) : Option WaitlistAction :=
  let emailToStoreAndCheck := jsOr attrsEmail username
  let currentUserFirstName := jsOrNull givenName
  let currentUserLastName := jsOrNull familyName
  if truthyStr emailToStoreAndCheck then
    let e := emailToStoreAndCheck.getD ""
    if inWaitlist then
      match entries.find? (fun entry => entry.email = e) with
      | some entryToRemove => some (.remove entryToRemove.id)
      | none => some .notFoundMessage
    else some (.create e currentUserFirstName currentUserLastName)
  else none

/-! ### Error translation in the catch blocks (App.tsx)

A caught error is either a non-object (or null), an object without a
well-formed `errors` array, or an object carrying a GraphQL `errors`
array. -/

structure GraphQLFormattedError where
  errorType : Option String
  message : Option String
deriving DecidableEq, Repr

inductive RemoteError where
  /-- `typeof error !== 'object'` or `error === null`. -/
  | nonObject
  /-- An object without an `errors` field that is an array. -/
  | objectWithoutErrors
  /-- An object with an `errors` array. -/
  | objectWithErrors (errors : List GraphQLFormattedError)
deriving DecidableEq, Repr

/-- The shared authorization-denial test of the three catch blocks:
the error is an object whose `errors` array has an element with
`errorType === 'Unauthorized'`. -/
def isUnauthorizedError : RemoteError → Bool
  | .objectWithErrors errors => errors.any (fun e => e.errorType = some "Unauthorized")
  | _ => false

/-- The user-facing message of the `handleSlotClick` catch block. -/
def bookingErrorMessage (error : RemoteError) : String :=
  if isUnauthorizedError error then
    "Permission denied: You do not have authorization to book this slot. Please ensure you are signed in correctly."
  else "Failed to update slot. Please try again."

/-- The user-facing message of the `handleRemoveBookingAsAdmin` catch
block. -/
def adminRemoveErrorMessage (error : RemoteError) : String :=
  if isUnauthorizedError error then
    "Permission denied: You do not have authorization to remove this booking. Please ensure you are signed in correctly."
  else "Failed to remove booking. Please try again."

/-- The user-facing message of the `handleWaitlistToggle` catch block. -/
def waitlistErrorMessage (error : RemoteError) : String :=
  if isUnauthorizedError error then
    "Permission denied: You do not have authorization to manage your waitlist status. Please ensure you are signed in correctly."
  else "Failed to update waitlist status. Please try again."

/-! ### Environment detection (src/utils/envUtils.ts)

`getAmplifyEnvironmentName` reads `window.location.hostname`; the model
takes the hostname as a parameter. -/

/-- Matches the regex fragment `d[a-z0-9]+`: the letter `d` followed by
at least one lowercase letter or digit. -/
def isDomainId (s : String) : Bool :=
  match s.data with
  | [] => false
  | c :: rest =>
    c = 'd' && !rest.isEmpty &&
      rest.all (fun x => decide ('a' ≤ x) && decide (x ≤ 'z')
        || decide ('0' ≤ x) && decide (x ≤ '9'))

/-- Embedding of
`hostname.match(/^(?:([^.]+)\.)?(d[a-z0-9]+)\.amplifyapp\.com$/)`.
Because the branch part cannot contain a dot and the match is anchored
at both ends, the hostname matches exactly when its dot-separated labels
are `[id, "amplifyapp", "com"]` or `[branch, id, "amplifyapp", "com"]`
with a non-empty branch and an id of shape `d[a-z0-9]+`.  The result
carries the optional branch capture and the id capture. -/
def amplifyDomainMatch (hostname : String) : Option (Option String × String) :=
  match jsSplit '.' hostname with
  | [d, a, c] =>
    if a = "amplifyapp" && c = "com" && isDomainId d then some (none, d) else none
  | [b, d, a, c] =>
    if !b.isEmpty && a = "amplifyapp" && c = "com" && isDomainId d then
      some (some b, d)
    else none
  | _ => none

/-- Embedding of `getAmplifyEnvironmentName`, with the hostname as
input. -/
def getAmplifyEnvironmentName (hostname : String) : String :=
  if hostname = "localhost" || hostname = "127.0.0.1" then "sandbox"
  else
    match amplifyDomainMatch hostname with
    | some (some branchName, _) => branchName
    | some (none, _) => "main"
    | none =>
      if hostname = "grandrivertennis.ca"
          || hostname.startsWith "prod.grandrivertennis.ca" then "prod"
      else "unknown"

/-! ### The email-forwarding Lambda handler
(amplify/functions/send-email-notification/handler.ts)

The two environment variables are `Option String` (`none` when unset);
the outcome of `sesClient.send` is a parameter.  The handler result
records whether an error was thrown, and which `SendEmailCommand` (if
any) was attempted. -/

structure EmailCommand where
  source : String
  toAddresses : List String
  subject : String
  body : String
deriving DecidableEq, Repr

structure SendEmailOutput where
  statusCode : Nat
  body : String
deriving DecidableEq, Repr

inductive SendOutcome where
  | success
  | failure (message : String)
deriving DecidableEq, Repr

inductive HandlerResult where
  /-- The handler threw an `Error` with this message; `attempted` is the
  command passed to `sesClient.send` beforehand, if any. -/
  | threw (message : String) (attempted : Option EmailCommand)
  /-- The handler returned normally after sending `command`. -/
  | returned (command : EmailCommand) (output : SendEmailOutput)
deriving DecidableEq, Repr

/-- JavaScript falsiness of `process.env.X`: unset, or set to the empty
string. -/
def envFalsy : Option String → Bool
  | none => true
  | some s => s.isEmpty

/-- Embedding of the Lambda `handler`: destructure the event arguments,
throw when either email environment variable is falsy, otherwise send a
single email to the configured recipient and report the outcome. -/
def sendEmailHandler (senderEmail recipientEmail : Option String)
    (subject body : String) (outcome : SendOutcome) : HandlerResult :=
  if envFalsy senderEmail || envFalsy recipientEmail then
    .threw "Email configuration missing. Cannot send email." none
  else
    let command : EmailCommand :=
      ⟨senderEmail.getD "", [recipientEmail.getD ""], subject, body⟩
    match outcome with
    | .success =>
        .returned command ⟨200, "\x7b\"message\":\"Email sent successfully!\"\x7d"⟩
    | .failure message => .threw ("Failed to send email: " ++ message) (some command)

/-! ### Concrete instances used by witnesses -/

def w1Now : Date := ⟨2026, 5, 15, 9, 30, 0, 0⟩

def w1Todos : List Todo :=
  [⟨"keep1", "2026-05-15", "08:00", some "alice", none, none, none⟩,
   ⟨"dup2", "2026-05-15", "08:00", none, none, none, none⟩,
   ⟨"junk3", "2020-01-01", "99:99", none, none, none, none⟩]

def w2Now : Date := ⟨2026, 3, 10, 18, 45, 0, 0⟩

def w2Todos : List Todo :=
  (expectedSlotPairs w2Now).map
    (fun p => ⟨p.1 ++ "-" ++ p.2, p.1, p.2, none, none, none, none⟩)

lemma isUnauthorizedError_iff (error : RemoteError) :
    isUnauthorizedError error = true ↔
      ∃ errors, error = RemoteError.objectWithErrors errors ∧
        ∃ e ∈ errors, e.errorType = some "Unauthorized" := by
  cases error with
  | nonObject => simp [isUnauthorizedError]
  | objectWithoutErrors => simp [isUnauthorizedError]
  | objectWithErrors es =>
    simp [isUnauthorizedError, List.any_eq_true]

/-- Claim C5: every caught remote error in the booking, admin-removal and
waitlist handlers is translated into one of a fixed small set of generic
user-facing strings, and the only differentiation is that the Permission
denied message appears if and only if the error is an object whose errors
array contains an element with errorType Unauthorized. -/
theorem errorMessages_spec (error : RemoteError) :
    (bookingErrorMessage error =
        "Permission denied: You do not have authorization to book this slot. Please ensure you are signed in correctly."
      ∨ bookingErrorMessage error = "Failed to update slot. Please try again.")
    ∧ (adminRemoveErrorMessage error =
        "Permission denied: You do not have authorization to remove this booking. Please ensure you are signed in correctly."
      ∨ adminRemoveErrorMessage error = "Failed to remove booking. Please try again.")
    ∧ (waitlistErrorMessage error =
        "Permission denied: You do not have authorization to manage your waitlist status. Please ensure you are signed in correctly."
      ∨ waitlistErrorMessage error = "Failed to update waitlist status. Please try again.")
    ∧ (bookingErrorMessage error =
        "Permission denied: You do not have authorization to book this slot. Please ensure you are signed in correctly."
      ↔ ∃ errors, error = RemoteError.objectWithErrors errors ∧
          ∃ e ∈ errors, e.errorType = some "Unauthorized")
    ∧ (adminRemoveErrorMessage error =
        "Permission denied: You do not have authorization to remove this booking. Please ensure you are signed in correctly."
      ↔ ∃ errors, error = RemoteError.objectWithErrors errors ∧
          ∃ e ∈ errors, e.errorType = some "Unauthorized")
    ∧ (waitlistErrorMessage error =
        "Permission denied: You do not have authorization to manage your waitlist status. Please ensure you are signed in correctly."
      ↔ ∃ errors, error = RemoteError.objectWithErrors errors ∧
          ∃ e ∈ errors, e.errorType = some "Unauthorized") := by
  rw [← isUnauthorizedError_iff]
  unfold bookingErrorMessage adminRemoveErrorMessage waitlistErrorMessage
  by_cases h : isUnauthorizedError error = true <;> simp [h]

/-- Claim C7: getAmplifyEnvironmentName is total and returns sandbox for
localhost and 127.0.0.1, the branch prefix for branch.dId.amplifyapp.com,
main for dId.amplifyapp.com without a branch prefix, prod for
grandrivertennis.ca or hostnames starting with prod.grandrivertennis.ca,
and unknown for every other hostname. -/
theorem getAmplifyEnvironmentName_spec (hostname : String) :
    ((hostname = "localhost" ∨ hostname = "127.0.0.1") →
      getAmplifyEnvironmentName hostname = "sandbox")
    ∧ (∀ b d, hostname ≠ "localhost" → hostname ≠ "127.0.0.1" →
        amplifyDomainMatch hostname = some (some b, d) →
        getAmplifyEnvironmentName hostname = b)
    ∧ (∀ d, hostname ≠ "localhost" → hostname ≠ "127.0.0.1" →
        amplifyDomainMatch hostname = some (none, d) →
        getAmplifyEnvironmentName hostname = "main")
    ∧ (hostname ≠ "localhost" → hostname ≠ "127.0.0.1" →
        amplifyDomainMatch hostname = none →
        (hostname = "grandrivertennis.ca" ∨
          hostname.startsWith "prod.grandrivertennis.ca" = true) →
        getAmplifyEnvironmentName hostname = "prod")
    ∧ (hostname ≠ "localhost" → hostname ≠ "127.0.0.1" →
        amplifyDomainMatch hostname = none →
        hostname ≠ "grandrivertennis.ca" →
        hostname.startsWith "prod.grandrivertennis.ca" = false →
        getAmplifyEnvironmentName hostname = "unknown") := by
  unfold getAmplifyEnvironmentName
  refine ⟨?_, ?_, ?_, ?_, ?_⟩
  · intro h; rcases h with h | h <;> simp [h]
  · intro b d h1 h2 h3; simp [h1, h2, h3]
  · intro d h1 h2 h3; simp [h1, h2, h3]
  · intro h1 h2 h3 h4; simp [h1, h2, h3]
    rcases h4 with h | h <;> simp [h]
  · intro h1 h2 h3 h4 h5; simp [h1, h2, h3, h4, h5]

/-- Witness for claim C7 at five concrete hostnames, one per branch. -/
theorem getAmplifyEnvironmentName_spec_witness :
    getAmplifyEnvironmentName "localhost" = "sandbox"
    ∧ getAmplifyEnvironmentName "dev.d123abc.amplifyapp.com" = "dev"
    ∧ getAmplifyEnvironmentName "d123abc.amplifyapp.com" = "main"
    ∧ getAmplifyEnvironmentName "grandrivertennis.ca" = "prod"
    ∧ getAmplifyEnvironmentName "example.com" = "unknown" :=
  ⟨(getAmplifyEnvironmentName_spec "localhost").1 (Or.inl rfl),
   (getAmplifyEnvironmentName_spec "dev.d123abc.amplifyapp.com").2.1 "dev" "d123abc"
     (by decide) (by decide) (by decide),
   (getAmplifyEnvironmentName_spec "d123abc.amplifyapp.com").2.2.1 "d123abc"
     (by decide) (by decide) (by decide),
   (getAmplifyEnvironmentName_spec "grandrivertennis.ca").2.2.2.1
     (by decide) (by decide) (by decide) (Or.inl rfl),
   (getAmplifyEnvironmentName_spec "example.com").2.2.2.2
     (by decide) (by decide) (by decide) (by decide) (by decide)⟩

lemma ne_empty_of_length_pos (s : String) (h : 0 < s.length) : s ≠ "" := by
  intro hc
  rw [hc] at h
  simp at h

lemma truthy_some {s : String} (h : s ≠ "") : truthyStr (some s) = true := by
  have he : s.isEmpty = false := by
    cases hc : s.isEmpty
    · rfl
    · exact absurd ((String.isEmpty_iff s).mp hc) h
  simp [truthyStr, he]

/-- Claim C9: formatDisplayName is total and never returns the empty
string; it returns the first name followed by the first letter of the last
name and a dot when both names are non-empty, otherwise the email when
non-empty, otherwise the username when non-empty, otherwise Unknown. -/
theorem formatDisplayName_spec (firstName lastName email username : Option String) :
    formatDisplayName firstName lastName email username ≠ ""
    ∧ (∀ f l, firstName = some f → f ≠ "" → lastName = some l → l ≠ "" →
        formatDisplayName firstName lastName email username = f ++ " " ++ charAt0 l ++ ".")
    ∧ ((truthyStr firstName && truthyStr lastName) = false →
        ∀ e, email = some e → e ≠ "" →
          formatDisplayName firstName lastName email username = e)
    ∧ ((truthyStr firstName && truthyStr lastName) = false → truthyStr email = false →
        ∀ u, username = some u → u ≠ "" →
          formatDisplayName firstName lastName email username = u)
    ∧ ((truthyStr firstName && truthyStr lastName) = false → truthyStr email = false →
        truthyStr username = false →
        formatDisplayName firstName lastName email username = "Unknown") := by
  refine ⟨?_, ?_, ?_, ?_, ?_⟩
  · unfold formatDisplayName
    by_cases h1 : (truthyStr firstName && truthyStr lastName) = true
    · rw [if_pos h1]
      apply ne_empty_of_length_pos
      rw [String.length_append]
      have hdot : ("." : String).length = 1 := rfl
      omega
    · rw [if_neg h1]
      by_cases h2 : truthyStr email = true
      · rw [if_pos h2]
        cases email with
        | none => simp [truthyStr] at h2
        | some e =>
          simp only [Option.getD_some]
          intro hc
          rw [hc] at h2
          exact absurd h2 (by decide)
      · rw [if_neg h2]
        by_cases h3 : truthyStr username = true
        · rw [if_pos h3]
          cases username with
          | none => simp [truthyStr] at h3
          | some u =>
            simp only [Option.getD_some]
            intro hc
            rw [hc] at h3
            exact absurd h3 (by decide)
        · rw [if_neg h3]
          decide
  · intro f l hf hfne hl hlne
    subst hf; subst hl
    unfold formatDisplayName
    rw [if_pos (by rw [truthy_some hfne, truthy_some hlne]; rfl)]
    simp
  · intro h1 e he hene
    subst he
    unfold formatDisplayName
    rw [if_neg (by rw [h1]; simp), if_pos (truthy_some hene)]
    simp
  · intro h1 h2 u hu hune
    subst hu
    unfold formatDisplayName
    rw [if_neg (by rw [h1]; simp), if_neg (by rw [h2]; simp), if_pos (truthy_some hune)]
    simp
  · intro h1 h2 h3
    unfold formatDisplayName
    rw [if_neg (by rw [h1]; simp), if_neg (by rw [h2]; simp), if_neg (by rw [h3]; simp)]

/-- Witness for claim C9 covering all four branches at concrete inputs. -/
theorem formatDisplayName_spec_witness :
    formatDisplayName (some "Gabriel") (some "Engi") (some "g@example.com") (some "google_1") =
      "Gabriel" ++ " " ++ charAt0 "Engi" ++ "."
    ∧ formatDisplayName none (some "Engi") (some "g@example.com") (some "google_1") = "g@example.com"
    ∧ formatDisplayName none none none (some "google_1") = "google_1"
    ∧ formatDisplayName none none none none = "Unknown"
    ∧ formatDisplayName none none none none ≠ "" :=
  ⟨(formatDisplayName_spec (some "Gabriel") (some "Engi") (some "g@example.com")
      (some "google_1")).2.1 "Gabriel" "Engi" rfl (by decide) rfl (by decide),
   (formatDisplayName_spec none (some "Engi") (some "g@example.com") (some "google_1")).2.2.1
      (by decide) "g@example.com" rfl (by decide),
   (formatDisplayName_spec none none none (some "google_1")).2.2.2.1
      (by decide) (by decide) "google_1" rfl (by decide),
   (formatDisplayName_spec none none none none).2.2.2.2 (by decide) (by decide) (by decide),
   (formatDisplayName_spec none none none none).1⟩

/-- Claim C3: for a slot record found in the local cache, the booking
toggle has exactly three branches: self-booked issues an update clearing
all four booker fields, booked-by-another issues no update and only shows
information (the booker-details modal for admins, the already-booked
message otherwise), and unbooked issues an update claiming the slot with
the current user's username and normalized attributes. -/
theorem handleSlotClick_branches (username : String)
    (givenName familyName email : Option String) (isAdmin : Bool) (targetTodo : Todo) :
    (targetTodo.bookedByUsername = some username →
      handleSlotClickFound username givenName familyName email isAdmin targetTodo =
        .update targetTodo.id none none none none)
    ∧ (∀ v, targetTodo.bookedByUsername = some v → v ≠ username →
        handleSlotClickFound username givenName familyName email isAdmin targetTodo =
          .showBookerDetails targetTodo.id
        ∨ handleSlotClickFound username givenName familyName email isAdmin targetTodo =
          .showAlreadyBooked (formatDisplayName targetTodo.bookedByFirstName
            targetTodo.bookedByLastName targetTodo.bookedByEmail targetTodo.bookedByUsername))
    ∧ (targetTodo.bookedByUsername = none →
        handleSlotClickFound username givenName familyName email isAdmin targetTodo =
          .update targetTodo.id (some username) (jsOrNull givenName) (jsOrNull familyName)
            (jsOrNull email)) := by
  refine ⟨?_, ?_, ?_⟩
  · intro h
    simp only [handleSlotClickFound]
    rw [if_pos h]
  · intro v hv hne
    simp only [handleSlotClickFound]
    rw [if_neg (by rw [hv]; intro hc; exact hne (Option.some_injective _ hc)),
      if_pos (by rw [hv]; exact Option.some_ne_none v)]
    cases isAdmin
    · right; rfl
    · left; rfl
  · intro h
    simp only [handleSlotClickFound]
    rw [if_neg (by rw [h]; simp), if_neg (by rw [h]; simp)]

/-- Witness for claim C3 exercising the three branches on concrete
records. -/
theorem handleSlotClick_branches_witness :
    handleSlotClickFound "me" (some "G") (some "E") (some "g@x") false
        ⟨"id1", "2026-01-01", "08:00", some "me", some "A", some "B", some "c@x"⟩ =
      .update "id1" none none none none
    ∧ (handleSlotClickFound "me" (some "G") (some "E") (some "g@x") false
          ⟨"id2", "2026-01-01", "09:00", some "other", some "A", some "B", some "c@x"⟩ =
        .showBookerDetails "id2"
      ∨ handleSlotClickFound "me" (some "G") (some "E") (some "g@x") false
          ⟨"id2", "2026-01-01", "09:00", some "other", some "A", some "B", some "c@x"⟩ =
        .showAlreadyBooked (formatDisplayName (some "A") (some "B") (some "c@x") (some "other")))
    ∧ handleSlotClickFound "me" (some "G") (some "E") (some "g@x") false
        ⟨"id3", "2026-01-01", "10:00", none, none, none, none⟩ =
      .update "id3" (some "me") (jsOrNull (some "G")) (jsOrNull (some "E")) (jsOrNull (some "g@x")) :=
  ⟨(handleSlotClick_branches "me" (some "G") (some "E") (some "g@x") false
      ⟨"id1", "2026-01-01", "08:00", some "me", some "A", some "B", some "c@x"⟩).1 rfl,
   (handleSlotClick_branches "me" (some "G") (some "E") (some "g@x") false
      ⟨"id2", "2026-01-01", "09:00", some "other", some "A", some "B", some "c@x"⟩).2.1
      "other" rfl (by decide),
   (handleSlotClick_branches "me" (some "G") (some "E") (some "g@x") false
      ⟨"id3", "2026-01-01", "10:00", none, none, none, none⟩).2.2 rfl⟩

/-- Counterexample to claim C8 as stated: with SENDER_EMAIL set to the
empty string (hence set, not unset) the handler still throws the
configuration error instead of attempting the send, because the source
tests the variables with JavaScript truthiness. -/
theorem sendEmailHandler_emptyEnv_counterexample :
    (some "" : Option String) ≠ none
    ∧ sendEmailHandler (some "") (some "recipient@example.com") "subject" "body" .success =
        .threw "Email configuration missing. Cannot send email." none := by
  constructor
  · intro h; exact Option.some_ne_none "" h
  · decide

/-- Claim C8 (amended): the email handler throws the configuration error,
without attempting a send, when SENDER_EMAIL or RECIPIENT_EMAIL is unset
or empty; otherwise it sends exactly one email with the event's subject
and body to the single configured recipient, returns status 200 with the
success body when the send succeeds, and throws a Failed-to-send-email
error when the send fails. -/
theorem sendEmailHandler_spec (senderEmail recipientEmail : Option String)
    (subject body : String) (outcome : SendOutcome) :
    ((senderEmail = none ∨ senderEmail = some "" ∨ recipientEmail = none ∨
        recipientEmail = some "") →
      sendEmailHandler senderEmail recipientEmail subject body outcome =
        .threw "Email configuration missing. Cannot send email." none)
    ∧ (∀ s r, senderEmail = some s → s ≠ "" → recipientEmail = some r → r ≠ "" →
        (outcome = .success →
          sendEmailHandler senderEmail recipientEmail subject body outcome =
            .returned ⟨s, [r], subject, body⟩
              ⟨200, "\x7b\"message\":\"Email sent successfully!\"\x7d"⟩)
        ∧ (∀ m, outcome = .failure m →
            sendEmailHandler senderEmail recipientEmail subject body outcome =
              .threw ("Failed to send email: " ++ m) (some ⟨s, [r], subject, body⟩))) := by
  constructor
  · intro h
    simp only [sendEmailHandler]
    rw [if_pos ?_]
    rcases h with h | h | h | h <;> rw [h] <;> simp [envFalsy] <;>
      first
      | decide
      | (left; decide)
      | (right; decide)
  · intro s r hs hsne hr hrne
    have hes : s.isEmpty = false := by
      cases hc : s.isEmpty
      · rfl
      · exact absurd ((String.isEmpty_iff s).mp hc) hsne
    have her : r.isEmpty = false := by
      cases hc : r.isEmpty
      · rfl
      · exact absurd ((String.isEmpty_iff r).mp hc) hrne
    constructor
    · intro ho
      subst hs; subst hr; subst ho
      simp only [sendEmailHandler]
      rw [if_neg (by simp [envFalsy, hes, her])]
      simp
    · intro m ho
      subst hs; subst hr; subst ho
      simp only [sendEmailHandler]
      rw [if_neg (by simp [envFalsy, hes, her])]
      simp

/-- Witness for claim C8 at concrete environments and outcomes. -/
theorem sendEmailHandler_spec_witness :
    sendEmailHandler none (some "r@example.com") "s" "b" .success =
      .threw "Email configuration missing. Cannot send email." none
    ∧ sendEmailHandler (some "a@example.com") (some "r@example.com") "s" "b" .success =
      .returned ⟨"a@example.com", ["r@example.com"], "s", "b"⟩
        ⟨200, "\x7b\"message\":\"Email sent successfully!\"\x7d"⟩
    ∧ sendEmailHandler (some "a@example.com") (some "r@example.com") "s" "b" (.failure "boom") =
      .threw ("Failed to send email: " ++ "boom")
        (some ⟨"a@example.com", ["r@example.com"], "s", "b"⟩) :=
  ⟨(sendEmailHandler_spec none (some "r@example.com") "s" "b" .success).1 (Or.inl rfl),
   ((sendEmailHandler_spec (some "a@example.com") (some "r@example.com") "s" "b" .success).2
      "a@example.com" "r@example.com" rfl (by decide) rfl (by decide)).1 rfl,
   ((sendEmailHandler_spec (some "a@example.com") (some "r@example.com") "s" "b"
      (.failure "boom")).2 "a@example.com" "r@example.com" rfl (by decide) rfl (by decide)).2
      "boom" rfl⟩

lemma mem_addDelete (s : ReconState) (j i : String) :
    i ∈ (addDelete s j).toDelete ↔ i ∈ s.toDelete ∨ i = j := by
  unfold addDelete
  by_cases h : j ∈ s.toDelete
  · rw [if_pos h]
    constructor
    · exact Or.inl
    · rintro (hi | rfl)
      · exact hi
      · exact h
  · rw [if_neg h]
    simp [List.mem_append]

lemma addDelete_valid (s : ReconState) (j : String) : (addDelete s j).valid = s.valid := by
  unfold addDelete
  split <;> rfl

lemma lookupValid_append_single (m : List (String × Todo)) (k0 : String) (t0 : Todo)
    (k : String) :
    lookupValid (m ++ [(k0, t0)]) k =
      match lookupValid m k with
      | some v => some v
      | none => if k0 = k then some t0 else none := by
  unfold lookupValid
  rw [List.find?_append]
  cases h : m.find? (fun p => p.1 = k) with
  | some p => simp [Option.or]
  | none =>
    simp only [Option.or, Option.map]
    by_cases hk : k0 = k
    · rw [List.find?_cons_of_pos _ (by simpa using hk)]
      simp [hk]
    · rw [List.find?_cons_of_neg _ (by simpa using hk)]
      simp [hk]

lemma lookupValid_reconAux (expected : List String) :
    ∀ (ts : List Todo) (s : ReconState) (k : String),
      lookupValid (reconAux expected s ts).valid k =
        match lookupValid s.valid k with
        | some v => some v
        | none =>
          if k ∈ expected then ts.find? (fun t => todoKey t = k) else none := by
  intro ts
  induction ts with
  | nil =>
    intro s k
    cases h : lookupValid s.valid k <;> simp [reconAux, h]
  | cons t0 ts ih =>
    intro s k
    show lookupValid (reconAux expected (reconStep expected s t0) ts).valid k = _
    rw [ih]
    unfold reconStep
    by_cases hk : todoKey t0 ∈ expected
    · rw [if_pos hk]
      cases hl : lookupValid s.valid (todoKey t0) with
      | some v =>
        rw [if_pos (by rfl), addDelete_valid]
        cases hsk : lookupValid s.valid k with
        | some w => rfl
        | none =>
          by_cases hke : k ∈ expected
          · simp only [hke, if_pos]
            rw [List.find?_cons_of_neg _ ?_]
            simp only [decide_eq_true_eq]
            intro hc
            rw [hc] at hl
            rw [hl] at hsk
            exact Option.noConfusion hsk
          · simp [hke]
      | none =>
        rw [if_neg (by simp)]
        simp only
        rw [lookupValid_append_single]
        cases hsk : lookupValid s.valid k with
        | some w => rfl
        | none =>
          simp only
          by_cases hkk : todoKey t0 = k
          · rw [if_pos hkk]
            have hke : k ∈ expected := hkk ▸ hk
            simp only [hke, if_pos]
            rw [List.find?_cons_of_pos _ (by simpa using hkk)]
          · rw [if_neg hkk]
            by_cases hke : k ∈ expected
            · simp only [hke, if_pos]
              rw [List.find?_cons_of_neg _ (by simpa using hkk)]
            · simp [hke]
    · rw [if_neg hk, addDelete_valid]
      cases hsk : lookupValid s.valid k with
      | some w => rfl
      | none =>
        by_cases hke : k ∈ expected
        · simp only [hke, if_pos]
          rw [List.find?_cons_of_neg _ ?_]
          simp only [decide_eq_true_eq]
          intro hc
          rw [hc] at hk
          exact hk hke
        · simp [hke]

lemma lookupValid_eq_none_iff (m : List (String × Todo)) (k : String) :
    lookupValid m k = none ↔ k ∉ m.map Prod.fst := by
  unfold lookupValid
  rw [Option.map_eq_none', List.find?_eq_none]
  constructor
  · intro h hk
    rcases List.mem_map.mp hk with ⟨p, hp, hpk⟩
    exact absurd (by simpa using hpk) (by simpa using h p hp)
  · intro h p hp
    simp only [decide_eq_true_eq]
    intro hpk
    exact h (List.mem_map.mpr ⟨p, hp, hpk⟩)

lemma reconAux_keys_nodup (expected : List String) :
    ∀ (ts : List Todo) (s : ReconState),
      (s.valid.map Prod.fst).Nodup →
      ((reconAux expected s ts).valid.map Prod.fst).Nodup := by
  intro ts
  induction ts with
  | nil => intro s h; exact h
  | cons t0 ts ih =>
    intro s h
    apply ih
    unfold reconStep
    by_cases hk : todoKey t0 ∈ expected
    · rw [if_pos hk]
      cases hl : lookupValid s.valid (todoKey t0) with
      | some v =>
        rw [if_pos (by rfl), addDelete_valid]
        exact h
      | none =>
        rw [if_neg (by simp)]
        simp only [List.map_append, List.map_cons, List.map_nil]
        rw [List.nodup_append]
        refine ⟨h, List.nodup_singleton _, ?_⟩
        intro a ha hb
        have hb' : a = todoKey t0 := by simpa using hb
        rw [hb'] at ha
        exact ((lookupValid_eq_none_iff s.valid (todoKey t0)).mp hl) ha
    · rw [if_neg hk, addDelete_valid]
      exact h

lemma reconAux_valid_keyed (expected : List String) :
    ∀ (ts : List Todo) (s : ReconState),
      (∀ p ∈ s.valid, p.1 = todoKey p.2) →
      ∀ p ∈ (reconAux expected s ts).valid, p.1 = todoKey p.2 := by
  intro ts
  induction ts with
  | nil => intro s h; exact h
  | cons t0 ts ih =>
    intro s h
    apply ih
    unfold reconStep
    by_cases hk : todoKey t0 ∈ expected
    · rw [if_pos hk]
      cases hl : lookupValid s.valid (todoKey t0) with
      | some v =>
        rw [if_pos (by rfl), addDelete_valid]
        exact h
      | none =>
        rw [if_neg (by simp)]
        intro p hp
        simp only [List.mem_append, List.mem_singleton] at hp
        rcases hp with hp | hp
        · exact h p hp
        · rw [hp]
    · rw [if_neg hk, addDelete_valid]
      exact h

set_option maxHeartbeats 1000000 in
lemma mem_toDelete_reconAux (expected : List String) :
    ∀ (ts : List Todo) (s : ReconState) (i : String),
      (ts.map Todo.id).Nodup →
      (i ∈ (reconAux expected s ts).toDelete ↔
        i ∈ s.toDelete ∨ ∃ t ∈ ts, t.id = i ∧
          (todoKey t ∉ expected ∨ lookupValid s.valid (todoKey t) ≠ none ∨
            ts.find? (fun u => todoKey u = todoKey t) ≠ some t)) := by
  intro ts
  induction ts with
  | nil =>
    intro s i _
    simp [reconAux]
  | cons t0 ts ih =>
    intro s i hn
    have hcons : (∀ x ∈ ts, x.id ≠ t0.id) ∧ (ts.map Todo.id).Nodup := by
      simpa using hn
    have hn2 : (ts.map Todo.id).Nodup := hcons.2
    show i ∈ (reconAux expected (reconStep expected s t0) ts).toDelete ↔ _
    rw [ih _ i hn2, List.exists_mem_cons_iff]
    unfold reconStep
    by_cases hk : todoKey t0 ∈ expected
    · rw [if_pos hk]
      cases hl : lookupValid s.valid (todoKey t0) with
      | some v =>
        rw [if_pos (by rfl), addDelete_valid, mem_addDelete]
        have h0 : (t0.id = i ∧
            (todoKey t0 ∉ expected ∨ (some v : Option Todo) ≠ none ∨
              (t0 :: ts).find? (fun u => todoKey u = todoKey t0) ≠ some t0)) ↔ t0.id = i := by
          constructor
          · exact And.left
          · intro h
            exact ⟨h, Or.inr (Or.inl (by simp))⟩
        have hX : (∃ t ∈ ts, t.id = i ∧
            (todoKey t ∉ expected ∨ lookupValid s.valid (todoKey t) ≠ none ∨
              ts.find? (fun u => todoKey u = todoKey t) ≠ some t)) ↔
            (∃ t ∈ ts, t.id = i ∧
              (todoKey t ∉ expected ∨ lookupValid s.valid (todoKey t) ≠ none ∨
                (t0 :: ts).find? (fun u => todoKey u = todoKey t) ≠ some t)) := by
          apply exists_congr
          intro t
          apply and_congr_right
          intro ht
          apply and_congr_right
          intro hti
          by_cases hkt : todoKey t = todoKey t0
          · have hne : lookupValid s.valid (todoKey t) ≠ none := by
              rw [hkt, hl]; simp
            simp [hne]
          · rw [List.find?_cons_of_neg _ ?_]
            simp only [decide_eq_true_eq]
            intro hc
            exact hkt hc.symm
        rw [h0, hX, show (i = t0.id) ↔ (t0.id = i) from eq_comm]
        exact or_assoc
      | none =>
        rw [if_neg (by simp)]
        dsimp only
        have hfind : (t0 :: ts).find? (fun u => todoKey u = todoKey t0) = some t0 :=
          List.find?_cons_of_pos _ (by simp)
        have h0 : (t0.id = i ∧
            (todoKey t0 ∉ expected ∨ (none : Option Todo) ≠ none ∨
              (t0 :: ts).find? (fun u => todoKey u = todoKey t0) ≠ some t0)) ↔ False := by
          simp [hk, hfind]
        have hX : (∃ t ∈ ts, t.id = i ∧
            (todoKey t ∉ expected ∨
              lookupValid (s.valid ++ [(todoKey t0, t0)]) (todoKey t) ≠ none ∨
              ts.find? (fun u => todoKey u = todoKey t) ≠ some t)) ↔
            (∃ t ∈ ts, t.id = i ∧
              (todoKey t ∉ expected ∨ lookupValid s.valid (todoKey t) ≠ none ∨
                (t0 :: ts).find? (fun u => todoKey u = todoKey t) ≠ some t)) := by
          apply exists_congr
          intro t
          apply and_congr_right
          intro ht
          apply and_congr_right
          intro hti
          by_cases hkt : todoKey t = todoKey t0
          · have hne : lookupValid (s.valid ++ [(todoKey t0, t0)]) (todoKey t) ≠ none := by
              rw [lookupValid_append_single, hkt, hl]
              simp
            have htne : t ≠ t0 := by
              intro hc
              exact hcons.1 t ht (by rw [hc])
            have hfind2 : (t0 :: ts).find? (fun u => todoKey u = todoKey t) = some t0 :=
              List.find?_cons_of_pos _ (by simp [hkt])
            have hne2 : (t0 :: ts).find? (fun u => todoKey u = todoKey t) ≠ some t := by
              rw [hfind2]
              intro hc
              exact htne (Option.some_injective _ hc).symm
            simp [hne, hne2]
          · have heq : lookupValid (s.valid ++ [(todoKey t0, t0)]) (todoKey t) =
                lookupValid s.valid (todoKey t) := by
              rw [lookupValid_append_single]
              cases lookupValid s.valid (todoKey t) with
              | some w => rfl
              | none =>
                simp only
                rw [if_neg (fun hc => hkt hc.symm)]
            rw [heq, List.find?_cons_of_neg _ ?_]
            simp only [decide_eq_true_eq]
            intro hc
            exact hkt hc.symm
        rw [h0, hX, false_or]
    · rw [if_neg hk, addDelete_valid, mem_addDelete]
      have h0 : (t0.id = i ∧
          (todoKey t0 ∉ expected ∨ lookupValid s.valid (todoKey t0) ≠ none ∨
            (t0 :: ts).find? (fun u => todoKey u = todoKey t0) ≠ some t0)) ↔ t0.id = i := by
        constructor
        · exact And.left
        · intro h
          exact ⟨h, Or.inl hk⟩
      have hX : (∃ t ∈ ts, t.id = i ∧
          (todoKey t ∉ expected ∨ lookupValid s.valid (todoKey t) ≠ none ∨
            ts.find? (fun u => todoKey u = todoKey t) ≠ some t)) ↔
          (∃ t ∈ ts, t.id = i ∧
            (todoKey t ∉ expected ∨ lookupValid s.valid (todoKey t) ≠ none ∨
              (t0 :: ts).find? (fun u => todoKey u = todoKey t) ≠ some t)) := by
        apply exists_congr
        intro t
        apply and_congr_right
        intro ht
        apply and_congr_right
        intro hti
        by_cases hkt : todoKey t = todoKey t0
        · have hnk : todoKey t ∉ expected := by rw [hkt]; exact hk
          simp [hnk]
        · rw [List.find?_cons_of_neg _ ?_]
          simp only [decide_eq_true_eq]
          intro hc
          exact hkt hc.symm
      rw [h0, hX, show (i = t0.id) ↔ (t0.id = i) from eq_comm]
      exact or_assoc

lemma reconAux_fresh (expected : List String) :
    ∀ (ts : List Todo) (s : ReconState),
      (∀ t ∈ ts, todoKey t ∈ expected) →
      (∀ t ∈ ts, lookupValid s.valid (todoKey t) = none) →
      (ts.map todoKey).Nodup →
      reconAux expected s ts =
        ⟨s.valid ++ ts.map (fun t => (todoKey t, t)), s.toDelete⟩ := by
  intro ts
  induction ts with
  | nil => intro s _ _ _; simp [reconAux]
  | cons t0 ts ih =>
    intro s hall hfresh hnd
    have hk : todoKey t0 ∈ expected := hall t0 (List.mem_cons_self t0 ts)
    have hl : lookupValid s.valid (todoKey t0) = none :=
      hfresh t0 (List.mem_cons_self t0 ts)
    have hcons : (∀ x ∈ ts, todoKey x ≠ todoKey t0) ∧ (ts.map todoKey).Nodup := by
      simpa using hnd
    have hall2 : ∀ t ∈ ts, todoKey t ∈ expected :=
      fun t ht => hall t (List.mem_cons_of_mem _ ht)
    have hfresh2 : ∀ t ∈ ts,
        lookupValid (s.valid ++ [(todoKey t0, t0)]) (todoKey t) = none := by
      intro t ht
      rw [lookupValid_append_single, hfresh t (List.mem_cons_of_mem _ ht)]
      simp only
      rw [if_neg (fun hc => hcons.1 t ht hc.symm)]
    show reconAux expected (reconStep expected s t0) ts = _
    unfold reconStep
    rw [if_pos hk, hl, if_neg (by simp)]
    rw [ih _ hall2 hfresh2 hcons.2]
    simp

lemma count_keys_lookup (m : List (String × Todo)) (k : String)
    (h : (m.map Prod.fst).Nodup) :
    (m.map Prod.fst).count k = if (lookupValid m k).isSome then 1 else 0 := by
  by_cases hl : lookupValid m k = none
  · rw [hl]
    simp only [Option.isSome_none, Bool.false_eq_true, if_false]
    exact List.count_eq_zero_of_not_mem ((lookupValid_eq_none_iff m k).mp hl)
  · have hmem : k ∈ m.map Prod.fst := by
      by_contra hc
      exact hl ((lookupValid_eq_none_iff m k).mpr hc)
    cases hs : lookupValid m k with
    | none => exact absurd hs hl
    | some v =>
      simp only [Option.isSome_some, if_true]
      exact List.count_eq_one_of_mem h hmem

lemma expectedSlotKeys_eq_map (now : Date) :
    expectedSlotKeys now = (expectedSlotPairs now).map (fun p => p.1 ++ "-" ++ p.2) := by
  unfold expectedSlotKeys expectedSlotPairs
  rw [List.map_flatMap]
  congr 1

lemma filterMap_newSlots_map_key (valid : List (String × Todo)) :
    ∀ ps : List (String × String),
      ((ps.filterMap (fun p =>
        if lookupValid valid (p.1 ++ "-" ++ p.2) = none then
          some (⟨p.1, p.2, none, none, none, none⟩ : NewSlot)
        else none)).map newSlotKey) =
      (ps.map (fun p => p.1 ++ "-" ++ p.2)).filter
        (fun k => decide (lookupValid valid k = none)) := by
  intro ps
  induction ps with
  | nil => rfl
  | cons p ps ih =>
    simp only [List.filterMap_cons, List.map_cons, List.filter_cons]
    by_cases h : lookupValid valid (p.1 ++ "-" ++ p.2) = none
    · rw [if_pos h, if_pos (by simp [h]), List.map_cons, ih]
      rfl
    · rw [if_neg h, if_neg (by simp [h]), ih]

lemma newSlots_map_key (now : Date) (valid : List (String × Todo)) :
    (newSlotsToCreate now valid).map newSlotKey =
      (expectedSlotKeys now).filter (fun k => decide (lookupValid valid k = none)) := by
  unfold newSlotsToCreate
  rw [expectedSlotKeys_eq_map, filterMap_newSlots_map_key]

lemma newSlots_all_null (now : Date) (valid : List (String × Todo)) :
    ∀ sl ∈ newSlotsToCreate now valid,
      sl.bookedByUsername = none ∧ sl.bookedByFirstName = none ∧
      sl.bookedByLastName = none ∧ sl.bookedByEmail = none := by
  intro sl hsl
  unfold newSlotsToCreate at hsl
  rcases List.mem_filterMap.mp hsl with ⟨p, hp, hpf⟩
  by_cases h : lookupValid valid (p.1 ++ "-" ++ p.2) = none
  · rw [if_pos h] at hpf
    cases hpf
    exact ⟨rfl, rfl, rfl, rfl⟩
  · rw [if_neg h] at hpf
    exact absurd hpf (by simp)

set_option maxHeartbeats 1000000 in
/-- Claim C1 (amended): with record keys read as the dash-joined strings
the code computes (dateSlot-"-"-timeSlot), and the expected key set being
the dash-joined keys of the seven dates crossed with the thirteen time
slots, the reconciliation pass marks for deletion exactly the records
whose key is outside the expected set or that are a second-or-later
occurrence of an already-seen key, creates exactly one all-null record
for each expected key without a surviving record, and afterwards each
expected key is represented by exactly one record.  The record ids are
assumed distinct, and the expected keys distinct, both true of the real
data. -/
theorem reconciliation_string_keyed (now : Date) (todos : List Todo)
    (hids : (todos.map Todo.id).Nodup)
    (hkeys : (expectedSlotKeys now).Nodup) :
    (∀ t ∈ todos,
      (t.id ∈ (recon (expectedSlotKeys now) todos).toDelete ↔
        (todoKey t ∉ expectedSlotKeys now ∨
          todos.find? (fun u => todoKey u = todoKey t) ≠ some t)))
    ∧ (∀ i ∈ (recon (expectedSlotKeys now) todos).toDelete, ∃ t ∈ todos, t.id = i)
    ∧ (∀ sl ∈ newSlotsToCreate now (recon (expectedSlotKeys now) todos).valid,
        sl.bookedByUsername = none ∧ sl.bookedByFirstName = none ∧
        sl.bookedByLastName = none ∧ sl.bookedByEmail = none)
    ∧ ((newSlotsToCreate now (recon (expectedSlotKeys now) todos).valid).map newSlotKey =
        (expectedSlotKeys now).filter
          (fun k => decide (lookupValid (recon (expectedSlotKeys now) todos).valid k = none)))
    ∧ (∀ k ∈ expectedSlotKeys now,
        (((recon (expectedSlotKeys now) todos).valid.map (fun p => todoKey p.2)) ++
          (newSlotsToCreate now (recon (expectedSlotKeys now) todos).valid).map
            newSlotKey).count k = 1) := by
  unfold recon
  have hdel := fun i =>
    mem_toDelete_reconAux (expectedSlotKeys now) todos ⟨[], []⟩ i hids
  refine ⟨?_, ?_, newSlots_all_null now _, newSlots_map_key now _, ?_⟩
  · intro t ht
    rw [hdel t.id]
    simp only [show (⟨[], []⟩ : ReconState).toDelete = [] from rfl, List.not_mem_nil,
      false_or]
    constructor
    · rintro ⟨u, hu, hui, hcond⟩
      have hut : u = t := List.inj_on_of_nodup_map hids hu ht hui
      subst hut
      rcases hcond with h | h | h
      · exact Or.inl h
      · exact absurd rfl h
      · exact Or.inr h
    · intro h
      refine ⟨t, ht, rfl, ?_⟩
      rcases h with h | h
      · exact Or.inl h
      · exact Or.inr (Or.inr h)
  · intro i hi
    rcases (hdel i).mp hi with h | ⟨t, ht, hti, _⟩
    · exact absurd h (List.not_mem_nil i)
    · exact ⟨t, ht, hti⟩
  · intro k hk
    have hkeyed : ∀ p ∈ (reconAux (expectedSlotKeys now) ⟨[], []⟩ todos).valid,
        p.1 = todoKey p.2 :=
      reconAux_valid_keyed _ todos ⟨[], []⟩
        (fun p hp => absurd hp (List.not_mem_nil p))
    have hnd : ((reconAux (expectedSlotKeys now) ⟨[], []⟩ todos).valid.map Prod.fst).Nodup :=
      reconAux_keys_nodup _ todos ⟨[], []⟩ (by simp)
    have hmapeq : (reconAux (expectedSlotKeys now) ⟨[], []⟩ todos).valid.map
          (fun p => todoKey p.2) =
        (reconAux (expectedSlotKeys now) ⟨[], []⟩ todos).valid.map Prod.fst :=
      List.map_congr_left (fun p hp => (hkeyed p hp).symm)
    rw [List.count_append, hmapeq, newSlots_map_key, count_keys_lookup _ _ hnd]
    by_cases hl : lookupValid (reconAux (expectedSlotKeys now) ⟨[], []⟩ todos).valid k = none
    · rw [hl]
      have h0 : (if (none : Option Todo).isSome = true then 1 else 0) = 0 := rfl
      rw [h0, List.count_filter (by simp [hl]), List.count_eq_one_of_mem hkeys hk]
    · cases hs : lookupValid (reconAux (expectedSlotKeys now) ⟨[], []⟩ todos).valid k with
      | none => exact absurd hs hl
      | some v =>
        have h1 : (if (some v).isSome = true then 1 else 0) = 1 := rfl
        rw [h1]
        have hzero : ((expectedSlotKeys now).filter
            (fun k2 => decide
              (lookupValid (reconAux (expectedSlotKeys now) ⟨[], []⟩ todos).valid k2 =
                none))).count k = 0 := by
          apply List.count_eq_zero_of_not_mem
          intro hc
          rcases List.mem_filter.mp hc with ⟨_, hp⟩
          rw [hs] at hp
          simp at hp
        rw [hzero]

/-- Witness for claim C1: on a concrete three-record fetch (one keeper,
one duplicate, one stray) the duplicate and the stray are marked for
deletion and an expected key is represented exactly once afterwards. -/
theorem reconciliation_string_keyed_witness :
    "dup2" ∈ (recon (expectedSlotKeys w1Now) w1Todos).toDelete
    ∧ "junk3" ∈ (recon (expectedSlotKeys w1Now) w1Todos).toDelete
    ∧ (((recon (expectedSlotKeys w1Now) w1Todos).valid.map (fun p => todoKey p.2)) ++
        (newSlotsToCreate w1Now (recon (expectedSlotKeys w1Now) w1Todos).valid).map
          newSlotKey).count "2026-05-15-09:00" = 1 := by
  have h := reconciliation_string_keyed w1Now w1Todos (by decide) (by decide)
  exact ⟨(h.1 ⟨"dup2", "2026-05-15", "08:00", none, none, none, none⟩ (by decide)).mpr
      (by decide),
    (h.1 ⟨"junk3", "2020-01-01", "99:99", none, none, none, none⟩ (by decide)).mpr
      (by decide),
    h.2.2.2.2 "2026-05-15-09:00" (by decide)⟩

/-- Counterexample to claim C1 as stated: a record whose timeSlot is not
one of the thirteen time slots, so its (dateSlot, timeSlot) pair is
outside the expected set, is nevertheless not marked for deletion,
because its dash-joined string key collides with an expected key
(dateSlot "2026" and timeSlot "01-01-08:00" join to "2026-01-01-08:00");
the colliding expected pair also gets neither a surviving record with its
actual field values nor a created record. -/
theorem reconciliation_pairkey_counterexample :
    "01-01-08:00" ∉ timeSlots
    ∧ (recon (expectedSlotKeys ⟨2026, 1, 1, 0, 0, 0, 0⟩)
        [⟨"x", "2026", "01-01-08:00", none, none, none, none⟩]).toDelete = []
    ∧ (∀ p ∈ (recon (expectedSlotKeys ⟨2026, 1, 1, 0, 0, 0, 0⟩)
          [⟨"x", "2026", "01-01-08:00", none, none, none, none⟩]).valid,
        ¬(p.2.dateSlot = "2026-01-01" ∧ p.2.timeSlot = "08:00"))
    ∧ (∀ sl ∈ newSlotsToCreate ⟨2026, 1, 1, 0, 0, 0, 0⟩
          (recon (expectedSlotKeys ⟨2026, 1, 1, 0, 0, 0, 0⟩)
            [⟨"x", "2026", "01-01-08:00", none, none, none, none⟩]).valid,
        ¬(sl.dateSlot = "2026-01-01" ∧ sl.timeSlot = "08:00"))
    ∧ "2026-01-01" ∈ (getSevenDatesFromToday ⟨2026, 1, 1, 0, 0, 0, 0⟩).map SevenDate.storage
    ∧ "08:00" ∈ timeSlots := by decide

lemma string_beq_eq_decide (a b : String) : (a == b) = decide (a = b) := by
  by_cases h : a = b <;> simp [h]

lemma nodup_keys_of_counts (expected : List String) (todos : List Todo)
    (hall : ∀ t ∈ todos, todoKey t ∈ expected)
    (hone : ∀ k ∈ expected, (todos.filter (fun t => todoKey t = k)).length = 1) :
    (todos.map todoKey).Nodup := by
  rw [List.nodup_iff_count_le_one]
  intro k
  by_cases hk : k ∈ expected
  · have h1 := hone k hk
    have h2 : (todos.map todoKey).count k =
        (todos.filter (fun t => decide (todoKey t = k))).length := by
      show (todos.map todoKey).countP (fun x => x == k) = _
      rw [List.countP_map, List.countP_eq_length_filter]
      apply congrArg List.length
      apply List.filter_congr
      intro t _
      exact string_beq_eq_decide (todoKey t) k
    rw [h2, h1]
  · have hno : k ∉ todos.map todoKey := by
      intro hc
      rcases List.mem_map.mp hc with ⟨t, ht, hkt⟩
      exact hk (hkt ▸ hall t ht)
    rw [List.count_eq_zero_of_not_mem hno]
    exact Nat.zero_le 1

set_option maxHeartbeats 1000000 in
/-- Claim C2: the reconciliation pass is idempotent: on a record set that
is the result of one pass (exactly one record per expected key and none
outside the expected key set) it deletes nothing, creates nothing, and
keeps the record set unchanged. -/
theorem reconciliation_idempotent (now : Date) (todos : List Todo)
    (hall : ∀ t ∈ todos, todoKey t ∈ expectedSlotKeys now)
    (hone : ∀ k ∈ expectedSlotKeys now,
      (todos.filter (fun t => todoKey t = k)).length = 1) :
    (recon (expectedSlotKeys now) todos).toDelete = []
    ∧ newSlotsToCreate now (recon (expectedSlotKeys now) todos).valid = []
    ∧ (recon (expectedSlotKeys now) todos).valid.map Prod.snd = todos := by
  have hnd : (todos.map todoKey).Nodup :=
    nodup_keys_of_counts (expectedSlotKeys now) todos hall hone
  have hfresh : ∀ t ∈ todos, lookupValid (⟨[], []⟩ : ReconState).valid (todoKey t) = none :=
    fun t _ => rfl
  have hrec : recon (expectedSlotKeys now) todos =
      ⟨([] : List (String × Todo)) ++ todos.map (fun t => (todoKey t, t)), []⟩ :=
    reconAux_fresh (expectedSlotKeys now) todos ⟨[], []⟩ hall hfresh hnd
  rw [hrec]
  refine ⟨rfl, ?_, ?_⟩
  · unfold newSlotsToCreate
    rw [List.filterMap_eq_nil_iff]
    intro p hp
    have hkmem : p.1 ++ "-" ++ p.2 ∈ expectedSlotKeys now := by
      rw [expectedSlotKeys_eq_map]
      exact List.mem_map.mpr ⟨p, hp, rfl⟩
    have hlen := hone (p.1 ++ "-" ++ p.2) hkmem
    have hex : ∃ t ∈ todos, todoKey t = p.1 ++ "-" ++ p.2 := by
      rcases hfl : todos.filter (fun t => decide (todoKey t = p.1 ++ "-" ++ p.2)) with _ | ⟨t, rest⟩
      · rw [hfl] at hlen
        exact absurd hlen (by simp)
      · have ht := List.mem_of_mem_filter (hfl ▸ List.mem_cons_self t rest)
        have hpt := List.of_mem_filter (hfl ▸ List.mem_cons_self t rest)
        exact ⟨t, ht, by simpa using hpt⟩
    rcases hex with ⟨t, ht, hkt⟩
    have hlook : lookupValid (([] : List (String × Todo)) ++
        todos.map (fun t => (todoKey t, t))) (p.1 ++ "-" ++ p.2) ≠ none := by
      intro hc
      rw [lookupValid_eq_none_iff] at hc
      apply hc
      rw [List.nil_append, List.map_map]
      exact List.mem_map.mpr ⟨t, ht, hkt⟩
    rw [if_neg (by simpa using hlook)]
  · rw [List.nil_append, List.map_map]
    have : (Prod.snd ∘ fun t : Todo => (todoKey t, t)) = id := rfl
    rw [this, List.map_id]

lemma grid_todos_all_expected (now : Date) :
    ∀ t ∈ (expectedSlotPairs now).map
        (fun p => (⟨p.1 ++ "-" ++ p.2, p.1, p.2, none, none, none, none⟩ : Todo)),
      todoKey t ∈ expectedSlotKeys now := by
  intro t ht
  rcases List.mem_map.mp ht with ⟨p, hp, rfl⟩
  show p.1 ++ "-" ++ p.2 ∈ _
  rw [expectedSlotKeys_eq_map]
  exact List.mem_map.mpr ⟨p, hp, rfl⟩

lemma grid_todos_filter_one (now : Date) (hkeys : (expectedSlotKeys now).Nodup) :
    ∀ k ∈ expectedSlotKeys now,
      (((expectedSlotPairs now).map
          (fun p => (⟨p.1 ++ "-" ++ p.2, p.1, p.2, none, none, none, none⟩ : Todo))).filter
        (fun t => todoKey t = k)).length = 1 := by
  intro k hk
  rw [← List.countP_eq_length_filter, List.countP_map]
  have h2 : (expectedSlotPairs now).countP
        ((fun t : Todo => decide (todoKey t = k)) ∘
          (fun p => (⟨p.1 ++ "-" ++ p.2, p.1, p.2, none, none, none, none⟩ : Todo))) =
      (expectedSlotKeys now).count k := by
    rw [expectedSlotKeys_eq_map]
    show _ = ((expectedSlotPairs now).map (fun p => p.1 ++ "-" ++ p.2)).countP (fun x => x == k)
    rw [List.countP_map]
    rw [List.countP_eq_length_filter, List.countP_eq_length_filter]
    apply congrArg List.length
    apply List.filter_congr
    intro p _
    exact string_beq_eq_decide (p.1 ++ "-" ++ p.2) k
  rw [h2, List.count_eq_one_of_mem hkeys hk]

/-- Witness for claim C2 on the concrete full 7-by-13 grid. -/
theorem reconciliation_idempotent_witness :
    (recon (expectedSlotKeys w2Now) w2Todos).toDelete = []
    ∧ newSlotsToCreate w2Now (recon (expectedSlotKeys w2Now) w2Todos).valid = []
    ∧ (recon (expectedSlotKeys w2Now) w2Todos).valid.map Prod.snd = w2Todos :=
  reconciliation_idempotent w2Now w2Todos (grid_todos_all_expected w2Now)
    (grid_todos_filter_one w2Now (by decide))

/-- Claim C4 (amended): after the load pass the kept slot records contain
at most one record per (dateSlot, timeSlot) pair; waitlist entries
arriving on the subscription are only filtered for shape, so duplicates
per email are all kept, but the waitlist toggle never issues a create for
the current user while some kept entry already carries the user's
identifier. -/
theorem dedup_invariants_amended :
    (∀ (now : Date) (todos : List Todo) (d ts : String),
      (((recon (expectedSlotKeys now) todos).valid.map Prod.snd).filter
        (fun r => decide (r.dateSlot = d ∧ r.timeSlot = ts))).length ≤ 1)
    ∧ (∀ (attrsEmail username givenName familyName : Option String)
        (entries : List WaitlistEntry),
        (∃ en ∈ entries, some en.email = jsOr attrsEmail username) →
        ∀ e f l,
          handleWaitlistToggle attrsEmail username givenName familyName
            (isUserInWaitlistCalc (jsOr attrsEmail username) entries) entries ≠
            some (.create e f l)) := by
  constructor
  · intro now todos d ts
    have hkeyed : ∀ p ∈ (recon (expectedSlotKeys now) todos).valid, p.1 = todoKey p.2 :=
      reconAux_valid_keyed _ todos ⟨[], []⟩
        (fun p hp => absurd hp (List.not_mem_nil p))
    have hnd : ((recon (expectedSlotKeys now) todos).valid.map Prod.fst).Nodup :=
      reconAux_keys_nodup _ todos ⟨[], []⟩ (by simp)
    rw [← List.countP_eq_length_filter]
    calc ((recon (expectedSlotKeys now) todos).valid.map Prod.snd).countP
          (fun r => decide (r.dateSlot = d ∧ r.timeSlot = ts))
        ≤ ((recon (expectedSlotKeys now) todos).valid.map Prod.snd).countP
          (fun r => decide (todoKey r = d ++ "-" ++ ts)) := by
          apply List.countP_mono_left
          intro r _ hr
          simp only [decide_eq_true_eq] at hr ⊢
          show r.dateSlot ++ "-" ++ r.timeSlot = d ++ "-" ++ ts
          rw [hr.1, hr.2]
      _ = (recon (expectedSlotKeys now) todos).valid.countP
          (fun p => decide (p.1 = d ++ "-" ++ ts)) := by
          rw [List.countP_map]
          rw [List.countP_eq_length_filter, List.countP_eq_length_filter]
          apply congrArg List.length
          apply List.filter_congr
          intro p hp
          show decide (todoKey p.2 = d ++ "-" ++ ts) = decide (p.1 = d ++ "-" ++ ts)
          rw [hkeyed p hp]
      _ = ((recon (expectedSlotKeys now) todos).valid.map Prod.fst).count
          (d ++ "-" ++ ts) := by
          show _ = ((recon (expectedSlotKeys now) todos).valid.map Prod.fst).countP
            (fun x => x == d ++ "-" ++ ts)
          rw [List.countP_map]
          rw [List.countP_eq_length_filter, List.countP_eq_length_filter]
          apply congrArg List.length
          apply List.filter_congr
          intro p _
          exact (string_beq_eq_decide p.1 (d ++ "-" ++ ts)).symm
      _ ≤ 1 := List.nodup_iff_count_le_one.mp hnd _
  · intro attrsEmail username givenName familyName entries hex e f l
    rcases hex with ⟨en, hen, heq⟩
    cases hT : truthyStr (jsOr attrsEmail username) with
    | false =>
      simp only [handleWaitlistToggle, hT, Bool.false_eq_true, if_false]
      intro hc
      exact Option.noConfusion hc
    | true =>
      have hin : isUserInWaitlistCalc (jsOr attrsEmail username) entries = true := by
        unfold isUserInWaitlistCalc
        rw [if_pos ?_]
        · apply List.any_eq_true.mpr
          refine ⟨en, hen, ?_⟩
          simp only [decide_eq_true_eq]
          have : (jsOr attrsEmail username).getD "" = en.email := by
            rw [← heq]
            rfl
          exact this.symm ▸ rfl
        · rw [hT]
          simp only [Bool.true_and, decide_eq_true_eq]
          exact List.length_pos_of_mem hen
      simp only [handleWaitlistToggle, hT, hin, if_true]
      cases hfind : entries.find? (fun entry => entry.email = (jsOr attrsEmail username).getD "") with
      | some x =>
        intro hc
        exact WaitlistAction.noConfusion (Option.some_injective _ hc)
      | none =>
        intro hc
        exact WaitlistAction.noConfusion (Option.some_injective _ hc)

/-- Counterexample to claim C4 as stated: two valid subscription items
with the same email both survive the client-side filter, so the waitlist
entries held by the client are not limited to one entry per member. -/
theorem waitlist_dedup_counterexample :
    ((waitlistSubscriptionNext
        [⟨some "w1", some "a@b.c", some (some "Ann"), none, some (some "t1")⟩,
         ⟨some "w2", some "a@b.c", some (some "Bob"), none, some (some "t2")⟩]).filter
      (fun en => decide (en.email = "a@b.c"))).length = 2 := by decide

/-- Witness for claim C4: a duplicate pair of slot records keeps one
survivor, and a toggle with an existing entry does not create. -/
theorem dedup_invariants_amended_witness :
    (((recon (expectedSlotKeys ⟨2026, 5, 20, 7, 0, 0, 0⟩)
        [⟨"a1", "2026-05-20", "08:00", none, none, none, none⟩,
         ⟨"a2", "2026-05-20", "08:00", none, none, none, none⟩]).valid.map Prod.snd).filter
      (fun r => decide (r.dateSlot = "2026-05-20" ∧ r.timeSlot = "08:00"))).length ≤ 1
    ∧ handleWaitlistToggle (some "a@b.c") none (some "Gabe") none
        (isUserInWaitlistCalc (jsOr (some "a@b.c") none)
          [⟨"w1", "a@b.c", none, none, some "t1"⟩])
        [⟨"w1", "a@b.c", none, none, some "t1"⟩] ≠
      some (.create "a@b.c" (some "Gabe") none) :=
  ⟨dedup_invariants_amended.1 ⟨2026, 5, 20, 7, 0, 0, 0⟩
      [⟨"a1", "2026-05-20", "08:00", none, none, none, none⟩,
       ⟨"a2", "2026-05-20", "08:00", none, none, none, none⟩] "2026-05-20" "08:00",
   dedup_invariants_amended.2 (some "a@b.c") none (some "Gabe") none
      [⟨"w1", "a@b.c", none, none, some "t1"⟩]
      ⟨⟨"w1", "a@b.c", none, none, some "t1"⟩, by decide, by decide⟩
      "a@b.c" (some "Gabe") none⟩

lemma addDays_add (dt : Date) (a b : Nat) :
    addDays dt (a + b) = addDays (addDays dt a) b := by
  induction b with
  | zero => rfl
  | succ b ih =>
    rw [Nat.add_succ]
    show nextDay (addDays dt (a + b)) = nextDay (addDays (addDays dt a) b)
    rw [ih]

lemma addDays_first (dt : Date) (j : Nat) (h1 : dt.day = 1)
    (hj : j < daysInMonth dt.year dt.month) :
    addDays dt j = { dt with day := 1 + j } := by
  induction j with
  | zero =>
    show dt = { dt with day := 1 + 0 }
    cases dt with
    | mk y m d hh mm ss ms =>
      simp only at h1
      rw [h1]
  | succ j ih =>
    have hj2 : j < daysInMonth dt.year dt.month := Nat.lt_of_succ_lt hj
    show nextDay (addDays dt j) = _
    rw [ih hj2]
    unfold nextDay
    rw [if_pos (by simp only; omega)]
    rfl

lemma setDate_day_add (dt : Date) (i : Nat) (h1 : 1 ≤ dt.day)
    (h2 : dt.day ≤ daysInMonth dt.year dt.month) :
    setDate dt (dt.day + i) = addDays dt i := by
  unfold setDate
  have hsub : dt.day + i - 1 = (dt.day - 1) + i := by omega
  rw [hsub, addDays_add]
  congr 1
  have hfirst := addDays_first { dt with day := 1 } (dt.day - 1) rfl
    (show dt.day - 1 < daysInMonth dt.year dt.month by omega)
  rw [hfirst]
  cases dt with
  | mk y m d hh mm ss ms =>
    simp only at h1 ⊢
    have : 1 + (d - 1) = d := by omega
    rw [this]

/-- Claim C6: timeSlots is exactly the thirteen hourly strings 08:00
through 20:00 in increasing order, and getSevenDatesFromToday returns
exactly seven consecutive calendar dates starting with today normalized
to the start of the day. -/
theorem grid_dimensions (now : Date) (h1 : 1 ≤ now.day)
    (h2 : now.day ≤ daysInMonth now.year now.month) :
    timeSlots = ["08:00", "09:00", "10:00", "11:00", "12:00", "13:00", "14:00",
      "15:00", "16:00", "17:00", "18:00", "19:00", "20:00"]
    ∧ timeSlots.length = 13
    ∧ List.Pairwise (fun a b : String => a.data < b.data) timeSlots
    ∧ (getSevenDatesFromToday now).length = 7
    ∧ (getSevenDatesFromToday now).map SevenDate.date =
        (List.range 7).map (fun i => addDays (startOfDay now) i)
    ∧ (getSevenDatesFromToday now).map SevenDate.storage =
        (List.range 7).map
          (fun i => getFormattedDateStorage (addDays (startOfDay now) i)) := by
  have hdates : ∀ i ∈ List.range 7,
      setDate (startOfDay now) ((startOfDay now).day + i) = addDays (startOfDay now) i :=
    fun i _ => setDate_day_add (startOfDay now) i h1 h2
  refine ⟨by decide, rfl, by decide, ?_, ?_, ?_⟩
  · simp [getSevenDatesFromToday]
  · simp only [getSevenDatesFromToday, List.map_map]
    apply List.map_congr_left
    intro i hi
    show setDate (startOfDay now) ((startOfDay now).day + i) = addDays (startOfDay now) i
    exact hdates i hi
  · simp only [getSevenDatesFromToday, List.map_map]
    apply List.map_congr_left
    intro i hi
    show getFormattedDateStorage (setDate (startOfDay now) ((startOfDay now).day + i)) =
      getFormattedDateStorage (addDays (startOfDay now) i)
    rw [hdates i hi]

/-- Witness for claim C6 at a concrete date crossing a month boundary. -/
theorem grid_dimensions_witness :
    (getSevenDatesFromToday ⟨2026, 2, 27, 11, 15, 0, 0⟩).map SevenDate.date =
      (List.range 7).map (fun i => addDays (startOfDay ⟨2026, 2, 27, 11, 15, 0, 0⟩) i)
    ∧ (getSevenDatesFromToday ⟨2026, 2, 27, 11, 15, 0, 0⟩).length = 7
    ∧ List.Pairwise (fun a b : String => a.data < b.data) timeSlots :=
  ⟨(grid_dimensions ⟨2026, 2, 27, 11, 15, 0, 0⟩ (by decide) (by decide)).2.2.2.2.1,
   (grid_dimensions ⟨2026, 2, 27, 11, 15, 0, 0⟩ (by decide) (by decide)).2.2.2.1,
   (grid_dimensions ⟨2026, 2, 27, 11, 15, 0, 0⟩ (by decide) (by decide)).2.2.1⟩

lemma digitChar_toNat (n : Nat) (h : n < 10) : (digitChar n).toNat = 48 + n := by
  interval_cases n <;> rfl

lemma parse_toDecimalAux (fuel : Nat) : ∀ n, n < fuel →
    parseDecimal (toDecimalAux fuel n) = n := by
  induction fuel with
  | zero => intro n h; exact absurd h (Nat.not_lt_zero n)
  | succ fuel ih =>
    intro n h
    show parseDecimal
      (if n < 10 then [digitChar n]
       else toDecimalAux fuel (n / 10) ++ [digitChar (n % 10)]) = n
    by_cases h10 : n < 10
    · rw [if_pos h10]
      show 0 * 10 + ((digitChar n).toNat - 48) = n
      rw [digitChar_toNat n h10]
      omega
    · rw [if_neg h10]
      unfold parseDecimal
      rw [List.foldl_append]
      show (parseDecimal (toDecimalAux fuel (n / 10))) * 10 +
        ((digitChar (n % 10)).toNat - 48) = n
      rw [ih (n / 10) (by omega), digitChar_toNat (n % 10) (Nat.mod_lt n (by omega))]
      omega

lemma parse_toDecimal (n : Nat) : parseDecimal (toDecimal n) = n :=
  parse_toDecimalAux (n + 1) n (Nat.lt_succ_self n)

lemma toDecimalAux_digits (fuel : Nat) : ∀ n, ∀ c ∈ toDecimalAux fuel n,
    48 ≤ c.toNat ∧ c.toNat ≤ 57 := by
  induction fuel with
  | zero => intro n c hc; exact absurd hc (List.not_mem_nil c)
  | succ fuel ih =>
    intro n c hc
    rw [show toDecimalAux (fuel + 1) n =
      (if n < 10 then [digitChar n]
       else toDecimalAux fuel (n / 10) ++ [digitChar (n % 10)]) from rfl] at hc
    by_cases h10 : n < 10
    · rw [if_pos h10] at hc
      have : c = digitChar n := by simpa using hc
      rw [this, digitChar_toNat n h10]
      omega
    · rw [if_neg h10] at hc
      rcases List.mem_append.mp hc with hc2 | hc2
      · exact ih (n / 10) c hc2
      · have : c = digitChar (n % 10) := by simpa using hc2
        rw [this, digitChar_toNat (n % 10) (Nat.mod_lt n (by omega))]
        omega

lemma toDecimal_no_dash (n : Nat) : ∀ c ∈ toDecimal n, c ≠ '-' := by
  intro c hc hdash
  have hb := toDecimalAux_digits (n + 1) n c hc
  rw [hdash] at hb
  have h45 : ('-').toNat = 45 := rfl
  rw [h45] at hb
  omega

lemma splitCharList_ne_nil (c : Char) : ∀ cs, splitCharList c cs ≠ [] := by
  intro cs
  cases cs with
  | nil => simp [splitCharList]
  | cons x xs =>
    unfold splitCharList
    cases splitCharList c xs with
    | nil => simp
    | cons y ys => by_cases hx : x = c <;> simp [hx]

lemma splitCharList_no_sep (c : Char) : ∀ cs, (∀ x ∈ cs, x ≠ c) →
    splitCharList c cs = [cs] := by
  intro cs
  induction cs with
  | nil => intro _; rfl
  | cons x xs ih =>
    intro h
    have hx : x ≠ c := h x (List.mem_cons_self x xs)
    have hxs : splitCharList c xs = [xs] := ih (fun y hy => h y (List.mem_cons_of_mem x hy))
    unfold splitCharList
    rw [hxs]
    simp [hx]

lemma splitCharList_append (c : Char) : ∀ (a b : List Char), (∀ x ∈ a, x ≠ c) →
    splitCharList c (a ++ c :: b) = a :: splitCharList c b := by
  intro a
  induction a with
  | nil =>
    intro b _
    show splitCharList c (c :: b) = [] :: splitCharList c b
    rw [show splitCharList c (c :: b) =
      (match splitCharList c b with
       | [] => [[c]]
       | y :: ys => if c = c then [] :: y :: ys else (c :: y) :: ys) from rfl]
    cases h : splitCharList c b with
    | nil => exact absurd h (splitCharList_ne_nil c b)
    | cons y ys => simp
  | cons x a ih =>
    intro b h
    have hx : x ≠ c := h x (List.mem_cons_self x a)
    show splitCharList c (x :: (a ++ c :: b)) = (x :: a) :: splitCharList c b
    rw [show splitCharList c (x :: (a ++ c :: b)) =
      (match splitCharList c (a ++ c :: b) with
       | [] => [[x]]
       | y :: ys => if x = c then [] :: y :: ys else (x :: y) :: ys) from rfl]
    rw [ih b (fun y hy => h y (List.mem_cons_of_mem x hy))]
    simp [hx]

lemma parseDecimal_replicate_zero (k : Nat) (cs : List Char) :
    parseDecimal (List.replicate k '0' ++ cs) = parseDecimal cs := by
  induction k with
  | zero => rfl
  | succ k ih =>
    show parseDecimal ('0' :: (List.replicate k '0' ++ cs)) = parseDecimal cs
    rw [← ih]
    rfl

lemma padded_no_dash (n : Nat) :
    ∀ x ∈ List.replicate (2 - (toDecimal n).length) '0' ++ toDecimal n, x ≠ '-' := by
  intro x hx
  rcases List.mem_append.mp hx with hx2 | hx2
  · have hx0 : x = '0' := List.eq_of_mem_replicate hx2
    rw [hx0]
    decide
  · exact toDecimal_no_dash n x hx2

/-- Claim C10: for every date with year at least 1000 the storage format
is the year, the zero-padded month and the zero-padded day joined by
dashes, and splitting that string on the dash and converting the three
parts to numbers, as handleSlotClick does, recovers exactly the original
year, month and day. -/
theorem storage_roundtrip (dt : Date) (_hy : 1000 ≤ dt.year) :
    jsSplit '-' (getFormattedDateStorage dt) =
      [natToString dt.year, padStart2 (natToString dt.month),
        padStart2 (natToString dt.day)]
    ∧ (jsSplit '-' (getFormattedDateStorage dt)).map parseDec =
        [dt.year, dt.month, dt.day] := by
  have hdata : (getFormattedDateStorage dt).data =
      toDecimal dt.year ++ '-' ::
        ((List.replicate (2 - (toDecimal dt.month).length) '0' ++ toDecimal dt.month) ++
          '-' :: (List.replicate (2 - (toDecimal dt.day).length) '0' ++
            toDecimal dt.day)) := by
    show (natToString dt.year ++ "-" ++ padStart2 (natToString dt.month) ++ "-" ++
      padStart2 (natToString dt.day)).data = _
    rw [String.data_append, String.data_append, String.data_append, String.data_append]
    show toDecimal dt.year ++ ['-'] ++
      (List.replicate (2 - (toDecimal dt.month).length) '0' ++ toDecimal dt.month) ++
      ['-'] ++
      (List.replicate (2 - (toDecimal dt.day).length) '0' ++ toDecimal dt.day) = _
    simp [List.append_assoc]
  have hsplit : splitCharList '-' (getFormattedDateStorage dt).data =
      [toDecimal dt.year,
       List.replicate (2 - (toDecimal dt.month).length) '0' ++ toDecimal dt.month,
       List.replicate (2 - (toDecimal dt.day).length) '0' ++ toDecimal dt.day] := by
    rw [hdata]
    rw [splitCharList_append '-' _ _ (toDecimal_no_dash dt.year)]
    rw [splitCharList_append '-' _ _ (padded_no_dash dt.month)]
    rw [splitCharList_no_sep '-' _ (padded_no_dash dt.day)]
  constructor
  · show (splitCharList '-' (getFormattedDateStorage dt).data).map String.mk = _
    rw [hsplit]
    rfl
  · show ((splitCharList '-' (getFormattedDateStorage dt).data).map String.mk).map
      parseDec = _
    rw [hsplit]
    show [parseDecimal (toDecimal dt.year),
      parseDecimal (List.replicate (2 - (toDecimal dt.month).length) '0' ++
        toDecimal dt.month),
      parseDecimal (List.replicate (2 - (toDecimal dt.day).length) '0' ++
        toDecimal dt.day)] = _
    rw [parse_toDecimal, parseDecimal_replicate_zero, parseDecimal_replicate_zero,
      parse_toDecimal, parse_toDecimal]

/-- Witness for claim C10 at the concrete date 2026-07-04. -/
theorem storage_roundtrip_witness :
    (1000 : Nat) ≤ 2026
    ∧ jsSplit '-' (getFormattedDateStorage ⟨2026, 7, 4, 0, 0, 0, 0⟩) = ["2026", "07", "04"]
    ∧ (jsSplit '-' (getFormattedDateStorage ⟨2026, 7, 4, 0, 0, 0, 0⟩)).map parseDec =
        [2026, 7, 4] :=
  ⟨by decide,
   (storage_roundtrip ⟨2026, 7, 4, 0, 0, 0, 0⟩ (by decide)).1.trans (by decide),
   (storage_roundtrip ⟨2026, 7, 4, 0, 0, 0, 0⟩ (by decide)).2⟩

end TennisSite
